import Mathlib

/-!
Verification of the elevator status-tracking bot (`src/main.py`).

Shallow embedding conventions:
* A log file is a sequence of text lines.  Each line is abstracted by its
  parse outcome (`Line`): blank after stripping, not valid JSON (or a JSON
  value that is not an object — every access on it raises, which all readers
  catch and treat like a parse failure), or a parsed JSON object `record`,
  abstracted by its two fields the program reads: the `"ts"` field (present
  and accepted by `datetime.fromisoformat` ⇒ `some` timestamp, otherwise
  `none`, since both a missing field and an unparseable value raise and are
  handled identically) and the `"status"` field (`none` when absent).
* `datetime` values are modelled as integer microsecond counts (CPython
  datetimes have microsecond resolution); `int((a - b).total_seconds())`
  for `a ≥ b` is floor division of the microsecond difference by 10^6.
* An absent log file is `none : Option (List Line)`; an existing file is
  `some lines`.
-/

/-- A line of a per-elevator log file, abstracted by its parse outcome. -/
inductive Line where
  /-- The line strips to the empty string. -/
  | blank : Line
  /-- `json.loads` fails on the line (or yields a non-object). -/
  | malformed : Line
  /-- A parsed JSON object: the `"ts"` field as accepted by
  `datetime.fromisoformat` (microseconds), and the `"status"` field. -/
  | record (ts : Option Int) (status : Option String) : Line
deriving DecidableEq

/-- The `totals` dictionary of `compute_uptime`: seconds per status key. -/
structure Totals where
  ok : Int
  warn : Int
  bad : Int
  unknown : Int
deriving DecidableEq

/-- `ELEVATORS` (main.py line 23). -/
def ELEVATORS : List String := ["8240", "8241", "8242", "8243"]

/-- `STATUS_LABELS` (main.py lines 31-36), as a lookup function. -/
def STATUS_LABELS (k : String) : String :=
  if k = "ok" then "работает"
  else if k = "warn" then "условно работает"
  else if k = "bad" then "не работает"
  else if k = "unknown" then "нет данных"
  else ""

/-- `STATUSES` (main.py lines 39-43): (label, key) pairs. -/
def STATUSES : List (String × String) :=
  [("✅ Отлично работает", "ok"),
   ("🟡 Работает, но с оговорками", "warn"),
   ("❌ Не работает", "bad")]

/-- The three status keys a log record may carry (`("ok", "warn", "bad")`). -/
def statusKeys : List String := ["ok", "warn", "bad"]

/-- The four keys of the `totals` dictionary of `compute_uptime`. -/
def totalsKeys : List String := ["ok", "warn", "bad", "unknown"]

/-- `format_duration` (main.py lines 97-103).  Python `//` and `%` on ints
agree with Lean `Int` `/` and `%` (Euclidean) for the positive divisors used
here.  The f-strings are built with `toString` and `++`. -/
def format_duration (seconds : Int) : String :=
  let minutes := seconds / 60
  let h := minutes / 60
  let m := minutes % 60
  if h = 0 then toString m ++ "м"
  else toString h ++ "ч " ++ toString m ++ "м"

/-- The body of the `try` block in `parse_events_for_elevator`
(main.py lines 84-92): a line yields an event iff it is a parsed object
whose `ts` parses and whose `status` is one of `ok`/`warn`/`bad`. -/
def validEvent : Line → Option (Int × String)
  | Line.record (some ts) (some st) =>
      if st = "ok" ∨ st = "warn" ∨ st = "bad" then some (ts, st) else none
  | _ => none

/-- `parse_events_for_elevator` (main.py lines 74-94): collect valid events
in file order, then `events.sort(key=lambda x: x[0])`.  Python's sort is
stable; `List.insertionSort` with `≤` on the timestamp is a stable sort, so
it models it faithfully.  A missing file yields `[]`. -/
def parse_events_for_elevator (log : Option (List Line)) : List (Int × String) :=
  match log with
  | none => []
  | some lines =>
      List.insertionSort (fun a b => a.1 ≤ b.1) (lines.filterMap validEvent)

/-- The "find last status before start" loop of `compute_uptime`
(main.py lines 113-118): walk events, remembering the status of each event
with `ts < start`, stopping at the first event with `ts ≥ start`. -/
def statusBeforeStart (events : List (Int × String)) (start : Int)
    (current : String) : String :=
  match events with
  | [] => current
  | (ts, st) :: rest =>
      if ts < start then statusBeforeStart rest start st else current

/-- `totals[st] += d` (main.py lines 132, 138).  In the program `st` is
always one of the four dictionary keys; other keys would raise `KeyError`
and are modelled as a no-op (they are unreachable). -/
def Totals.add (t : Totals) (st : String) (d : Int) : Totals :=
  if st = "ok" then { t with ok := t.ok + d }
  else if st = "warn" then { t with warn := t.warn + d }
  else if st = "bad" then { t with bad := t.bad + d }
  else if st = "unknown" then { t with unknown := t.unknown + d }
  else t

/-- The main event loop of `compute_uptime` plus the tail segment
(main.py lines 124-138): skip events before `start`, break at the first
event `≥ fin`, add each positive segment to the running status, and finally
add the tail up to `fin`. -/
def uptimeLoop (events : List (Int × String)) (start fin cursor : Int)
    (current : String) (totals : Totals) : Totals :=
  match events with
  | [] => if fin > cursor then totals.add current ((fin - cursor) / 1000000) else totals
  | (ts, st) :: rest =>
      if ts < start then uptimeLoop rest start fin cursor current totals
      else if ts ≥ fin then
        if fin > cursor then totals.add current ((fin - cursor) / 1000000) else totals
      else
        let totals' :=
          if ts > cursor then totals.add current ((ts - cursor) / 1000000) else totals
        uptimeLoop rest start fin ts st totals'

/-- `compute_uptime` (main.py lines 106-140): seconds per status over the
half-open window `[start, fin)`, or all zeros when `start ≥ fin`. -/
def compute_uptime (log : Option (List Line)) (start fin : Int) : Totals :=
  let events := parse_events_for_elevator log
  if start ≥ fin then ⟨0, 0, 0, 0⟩
  else
    let current := statusBeforeStart events start "unknown"
    uptimeLoop events start fin start current ⟨0, 0, 0, 0⟩

/-- Sum of the four buckets of a `Totals`. -/
def sumTotals (t : Totals) : Int := t.ok + t.warn + t.bad + t.unknown

/-- Python `round` on an exact quotient `num / den` with `den > 0`:
round to the nearest integer, ties to the even integer.  (The program
computes `sec * 100 / denom` in floating point; the model uses the exact
rational value, which coincides with the float wherever the claims and the
chosen counterexamples evaluate it.) -/
def roundHalfEven (num den : Int) : Int :=
  let q := num / den
  let r := num % den
  if 2 * r < den then q
  else if den < 2 * r then q + 1
  else if q % 2 = 0 then q else q + 1

/-- `pct` inside `render_report_block` (main.py lines 156-157):
`round(sec * 100 / denom) if denom else 0`. -/
def pct (denom sec : Int) : Int :=
  if denom = 0 then 0 else roundHalfEven (sec * 100) denom

/-- `render_report_block` (main.py lines 143-167). -/
def render_report_block (elevator_id : String) (t : Totals) : String :=
  let known_total := t.ok + t.warn + t.bad
  let full_total := known_total + t.unknown
  if full_total = 0 then "Лифт " ++ elevator_id ++ ":\nнет данных\n"
  else
    let denom0 := if t.unknown > 0 then full_total else known_total
    let denom := if denom0 = 0 then full_total else denom0
    let lines :=
      ["Лифт " ++ elevator_id ++ ":",
       STATUS_LABELS "ok" ++ " = " ++ format_duration t.ok ++
         " (" ++ toString (pct denom t.ok) ++ "%)",
       STATUS_LABELS "warn" ++ " = " ++ format_duration t.warn ++
         " (" ++ toString (pct denom t.warn) ++ "%)",
       STATUS_LABELS "bad" ++ " = " ++ format_duration t.bad ++
         " (" ++ toString (pct denom t.bad) ++ "%)"]
    let lines :=
      if t.unknown > 0 then
        lines ++ [STATUS_LABELS "unknown" ++ " = " ++ format_duration t.unknown ++
          " (" ++ toString (pct denom t.unknown) ++ "%)"]
      else lines
    String.intercalate "\n" lines ++ "\n"

/-- `get_last_status` (main.py lines 183-199): inspect only the final line
of the file; return its `"status"` field when it is a parsed object, and
`None` when the file is absent or empty or the final line is blank or
malformed. -/
def get_last_status (log : Option (List Line)) : Option String :=
  match log with
  | none => none
  | some lines =>
      match lines.getLast? with
      | none => none
      | some Line.blank => none
      | some Line.malformed => none
      | some (Line.record _ st) => st

/-- The per-line filter of `get_last_statuses` (main.py lines 429-441):
a line contributes a status iff it is a parsed object whose `"status"`
value lies in `{"ok", "warn", "bad"}`. -/
def lineStatus? : Line → Option String
  | Line.record _ (some s) =>
      if s = "ok" ∨ s = "warn" ∨ s = "bad" then some s else none
  | _ => none

/-- The backward scan of `get_last_statuses` (main.py lines 429-441) over
the reversed line list: append each collected status, and stop as soon as
the accumulator has reached length `n` (the check runs after the append). -/
def getLastStatusesAux (n : Nat) : List Line → List String → List String
  | [], acc => acc
  | l :: rest, acc =>
      match lineStatus? l with
      | none => getLastStatusesAux n rest acc
      | some s =>
          if acc.length + 1 ≥ n then acc ++ [s]
          else getLastStatusesAux n rest (acc ++ [s])

/-- `get_last_statuses` (main.py lines 419-443): scan the lines from the
end, collect up to `n` valid statuses, and return them oldest-first. -/
def get_last_statuses (log : Option (List Line)) (n : Nat) : List String :=
  match log with
  | none => []
  | some lines => (getLastStatusesAux n lines.reverse []).reverse

/-- The chronological (file-order) sequence of valid statuses of a log, as
used by the spec of `last_n_statuses`. -/
def validStatuses (lines : List Line) : List String :=
  lines.filterMap lineStatus?

/-- The `"status"` field of the most recently appended parseable record
(`none` when no parseable record exists; `some none` when the record lacks
the field) — the quantity the spec says `last_status` returns. -/
def lastValidRecordStatus (lines : List Line) : Option (Option String) :=
  (lines.filterMap (fun l => match l with
    | Line.record _ st => some st
    | _ => none)).getLast?

/-- `needs_confirm` (main.py lines 445-472). -/
def needs_confirm (last2 : List String) (new_status : String) : Bool :=
  if last2.length < 2 then false
  else
    let last_a := last2.getD (last2.length - 2) ""
    let last_b := last2.getD (last2.length - 1) ""
    if (last_a = "ok" ∨ last_a = "warn") ∧ (last_b = "ok" ∨ last_b = "warn") ∧
        new_status = "bad" then true
    else if last_a = "bad" ∧ last_b = "bad" ∧
        (new_status = "ok" ∨ new_status = "warn") then true
    else false

/-- Python `str.split(":")` on the character list of a string:
`""` splits to `[""]`, separators delimit possibly-empty fields. -/
def splitCols : List Char → List (List Char)
  | [] => [[]]
  | c :: rest =>
      if c = ':' then [] :: splitCols rest
      else
        match splitCols rest with
        | [] => [[c]]
        | p :: ps => (c :: p) :: ps

/-- Outcome of a callback handler: a validation alert with no write, a
confirmation prompt with no write, or a recorded status (`log_status`). -/
inductive Outcome where
  | rejected : Outcome
  | needsConfirm : Outcome
  | recorded : Outcome
deriving DecidableEq

/-- The set `valid_keys = {k for _, k in STATUSES}` (main.py line 305). -/
def validKeys : List String := STATUSES.map (fun p => p.2)

/-- `choose_status` (main.py lines 287-338), restricted to its effect on the
entity's log: `data` is `callback.data` (empty models Python-falsy data),
`log` is the entity's current log lines, and `t` is the timestamp
`log_status` would write.  Presentation-layer steps (alerts, menu edits,
message deletion) are summarised by the returned `Outcome`. -/
def choose_status (data : String) (log : List Line) (t : Int) :
    Outcome × List Line :=
  if data = "" then (Outcome.rejected, log)
  else
    let parts := (splitCols data.data).map List.asString
    if parts.length ≠ 3 then (Outcome.rejected, log)
    else
      let elevator_id := parts.getD 1 ""
      let status_key := parts.getD 2 ""
      if elevator_id ∉ ELEVATORS then (Outcome.rejected, log)
      else if status_key ∉ validKeys then (Outcome.rejected, log)
      else
        let last2 := get_last_statuses (some log) 2
        if needs_confirm last2 status_key then (Outcome.needsConfirm, log)
        else (Outcome.recorded, log ++ [Line.record (some t) (some status_key)])

/-- `confirm_status` (main.py lines 340-370), same conventions as
`choose_status`: after the structural checks it logs unconditionally — the
handler never tests `elevator_id` or `status_key`. -/
def confirm_status (data : String) (log : List Line) (t : Int) :
    Outcome × List Line :=
  if data = "" then (Outcome.rejected, log)
  else
    let parts := (splitCols data.data).map List.asString
    if parts.length ≠ 3 then (Outcome.rejected, log)
    else
      let status_key := parts.getD 2 ""
      (Outcome.recorded, log ++ [Line.record (some t) (some status_key)])

/-- All four buckets of a `Totals` are non-negative. -/
def Totals.Nonneg (t : Totals) : Prop :=
  0 ≤ t.ok ∧ 0 ≤ t.warn ∧ 0 ≤ t.bad ∧ 0 ≤ t.unknown

instance : IsTotal (Int × String) (fun a b => a.1 ≤ b.1) :=
  ⟨fun a b => le_total a.1 b.1⟩

instance : IsTrans (Int × String) (fun a b => a.1 ≤ b.1) :=
  ⟨fun _ _ _ hab hbc => le_trans hab hbc⟩

/-- The report block as the amended spec words it: same text as
`render_report_block`, but with the percentage denominator made explicit. -/
def renderWithDenom (elevator_id : String) (t : Totals) (denom : Int) : String :=
  let lines :=
    ["Лифт " ++ elevator_id ++ ":",
     STATUS_LABELS "ok" ++ " = " ++ format_duration t.ok ++
       " (" ++ toString (pct denom t.ok) ++ "%)",
     STATUS_LABELS "warn" ++ " = " ++ format_duration t.warn ++
       " (" ++ toString (pct denom t.warn) ++ "%)",
     STATUS_LABELS "bad" ++ " = " ++ format_duration t.bad ++
       " (" ++ toString (pct denom t.bad) ++ "%)"]
  let lines :=
    if t.unknown > 0 then
      lines ++ [STATUS_LABELS "unknown" ++ " = " ++ format_duration t.unknown ++
        " (" ++ toString (pct denom t.unknown) ++ "%)"]
    else lines
  String.intercalate "\n" lines ++ "\n"

/-! ## Helper lemmas -/

lemma getD_append_pair_left : ∀ (l : List String) (a b d : String),
    (l ++ [a, b]).getD l.length d = a
  | [], _, _, _ => rfl
  | x :: l, a, b, d => by
      simpa using getD_append_pair_left l a b d

lemma getD_append_pair_right : ∀ (l : List String) (a b d : String),
    (l ++ [a, b]).getD (l.length + 1) d = b
  | [], _, _, _ => rfl
  | x :: l, a, b, d => by
      simpa using getD_append_pair_right l a b d

/-! ## C1: transition guard -/

/-- Claim C1: `needs_confirm` returns true iff the last two statuses are both
in the working group `{ok, warn}` and the new status is `bad`, or the last
two are both `bad` and the new one is in `{ok, warn}`; with fewer than two
prior statuses it returns false. -/
theorem C1_transition_guard :
    (∀ (l : List String) (a b s : String),
      needs_confirm (l ++ [a, b]) s = true ↔
        (((a = "ok" ∨ a = "warn") ∧ (b = "ok" ∨ b = "warn") ∧ s = "bad") ∨
         (a = "bad" ∧ b = "bad" ∧ (s = "ok" ∨ s = "warn")))) ∧
    (∀ (l : List String) (s : String), l.length < 2 → needs_confirm l s = false) := by
  constructor
  · intro l a b s
    have hlen : (l ++ [a, b]).length = l.length + 2 := by simp
    have hge : ¬ (l ++ [a, b]).length < 2 := by omega
    have ha : (l ++ [a, b]).getD ((l ++ [a, b]).length - 2) "" = a := by
      rw [hlen, Nat.add_sub_cancel]; exact getD_append_pair_left l a b ""
    have hb : (l ++ [a, b]).getD ((l ++ [a, b]).length - 1) "" = b := by
      rw [hlen, show l.length + 2 - 1 = l.length + 1 from by omega]
      exact getD_append_pair_right l a b ""
    rw [needs_confirm, if_neg hge]
    simp only [ha, hb]
    split_ifs with h1 h2 <;> simp <;> tauto
  · intro l s h
    rw [needs_confirm, if_pos h]

/-- Witness for C1 at concrete inputs. -/
theorem C1_transition_guard_witness :
    needs_confirm ["ok", "warn"] "bad" = true ∧ needs_confirm ["bad"] "ok" = false :=
  ⟨(C1_transition_guard.1 [] "ok" "warn" "bad").2
      (Or.inl ⟨Or.inl rfl, Or.inr rfl, rfl⟩),
   C1_transition_guard.2 ["bad"] "ok" (by decide)⟩

/-! ## C9: duration formatting -/

/-- Claim C9: `format_duration` drops the seconds component (whole minutes),
renders hours+minutes iff the total is at least 60 minutes, and on the
spec's sample inputs gives "0м", "1ч 1м", "1ч 59м". -/
theorem C9_format_duration :
    (∀ s : Int, 0 ≤ s →
      ((s / 60 / 60 = 0 ↔ s / 60 < 60) ∧
       (s / 60 / 60 = 0 → format_duration s = toString (s / 60 % 60) ++ "м") ∧
       (s / 60 / 60 ≠ 0 →
         format_duration s =
           toString (s / 60 / 60) ++ "ч " ++ toString (s / 60 % 60) ++ "м"))) ∧
    (∀ s : Int, 0 ≤ s → s < 60 → format_duration s = "0м") ∧
    format_duration 3660 = "1ч 1м" ∧ format_duration 7199 = "1ч 59м" := by
  refine ⟨?_, ?_, by decide, by decide⟩
  · intro s hs
    refine ⟨by omega, ?_, ?_⟩
    · intro h
      simp only [format_duration]
      rw [if_pos h]
    · intro h
      simp only [format_duration]
      rw [if_neg h]
  · intro s hs h
    have h60 : s / 60 = 0 := by omega
    simp only [format_duration, h60]
    decide

/-- Witness for C9 at concrete inputs. -/
theorem C9_format_duration_witness :
    format_duration 120 = toString ((120 : Int) / 60 % 60) ++ "м" ∧
    format_duration 59 = "0м" :=
  ⟨(C9_format_duration.1 120 (by norm_num)).2.1 (by decide),
   C9_format_duration.2.1 59 (by norm_num) (by norm_num)⟩

/-! ## C10: totals are non-negative -/

lemma Totals.Nonneg.add {t : Totals} (h : t.Nonneg) (st : String) {d : Int}
    (hd : 0 ≤ d) : (t.add st d).Nonneg := by
  obtain ⟨h1, h2, h3, h4⟩ := h
  unfold Totals.add Totals.Nonneg
  split_ifs
  · exact ⟨(by omega : (0 : Int) ≤ t.ok + d), h2, h3, h4⟩
  · exact ⟨h1, (by omega : (0 : Int) ≤ t.warn + d), h3, h4⟩
  · exact ⟨h1, h2, (by omega : (0 : Int) ≤ t.bad + d), h4⟩
  · exact ⟨h1, h2, h3, (by omega : (0 : Int) ≤ t.unknown + d)⟩
  · exact ⟨h1, h2, h3, h4⟩

lemma uptimeLoop_nonneg :
    ∀ (events : List (Int × String)) (start fin cursor : Int) (cur : String)
      (totals : Totals), totals.Nonneg →
      (uptimeLoop events start fin cursor cur totals).Nonneg := by
  intro events
  induction events with
  | nil =>
      intro start fin cursor cur totals ht
      simp only [uptimeLoop]
      split_ifs with h
      · exact ht.add cur (Int.ediv_nonneg (by omega) (by norm_num))
      · exact ht
  | cons e rest ih =>
      intro start fin cursor cur totals ht
      obtain ⟨ts, st⟩ := e
      simp only [uptimeLoop]
      split_ifs with h1 h2 h3 h4
      · exact ih start fin cursor cur totals ht
      · exact ht.add cur (Int.ediv_nonneg (by omega) (by norm_num))
      · exact ht
      · exact ih start fin ts st _ (ht.add cur (Int.ediv_nonneg (by omega) (by norm_num)))
      · exact ih start fin ts st _ ht

/-- Claim C10: for every log content and every pair of window endpoints
(including inverted or equal windows), every bucket returned by
`compute_uptime` is a non-negative integer. -/
theorem C10_totals_nonneg :
    ∀ (log : Option (List Line)) (start fin : Int),
      0 ≤ (compute_uptime log start fin).ok ∧
      0 ≤ (compute_uptime log start fin).warn ∧
      0 ≤ (compute_uptime log start fin).bad ∧
      0 ≤ (compute_uptime log start fin).unknown := by
  intro log start fin
  have h : (compute_uptime log start fin).Nonneg := by
    unfold compute_uptime
    split_ifs with h
    · exact ⟨le_refl 0, le_refl 0, le_refl 0, le_refl 0⟩
    · exact uptimeLoop_nonneg _ _ _ _ _ _ ⟨le_refl 0, le_refl 0, le_refl 0, le_refl 0⟩
  exact h

/-! ## C3: last status -/

lemma filterMap_getLast?_of_getLast? {α β : Type} (f : α → Option β) :
    ∀ (l : List α) (a : α) (b : β), l.getLast? = some a → f a = some b →
      (l.filterMap f).getLast? = some b := by
  intro l
  induction l with
  | nil => intro a b h _; simp at h
  | cons x t ih =>
      intro a b hlast hf
      cases t with
      | nil =>
          simp only [List.getLast?_singleton, Option.some.injEq] at hlast
          subst hlast
          simp [List.filterMap_cons, hf]
      | cons y r =>
          have hlast' : (y :: r).getLast? = some a := by
            rwa [List.getLast?_cons_cons] at hlast
          have htail := ih a b hlast' hf
          rw [List.filterMap_cons]
          cases hx : f x with
          | none => exact htail
          | some bx =>
              have hne : (y :: r).filterMap f ≠ [] := by
                intro hemp
                rw [hemp] at htail
                simp at htail
              obtain ⟨z, w, hw⟩ := List.exists_cons_of_ne_nil hne
              rw [hw, List.getLast?_cons_cons, ← hw]
              exact htail

/-- Claim C3 (corrected): `get_last_status` is `none` when the log is
absent, empty, or has no parseable record at all; and when the final line
itself is a parseable record it returns the status field of the most
recently appended parseable record.  (It does NOT skip trailing malformed
lines — see the counterexample.) -/
theorem C3_last_status_amended :
    get_last_status none = none ∧
    (∀ lines : List Line, lastValidRecordStatus lines = none →
        get_last_status (some lines) = none) ∧
    (∀ (lines : List Line) (ts : Option Int) (st : Option String),
        lines.getLast? = some (Line.record ts st) →
        get_last_status (some lines) = Option.join (lastValidRecordStatus lines)) := by
  refine ⟨rfl, ?_, ?_⟩
  · intro lines h
    simp only [get_last_status]
    cases hl : lines.getLast? with
    | none => rfl
    | some l =>
        cases l with
        | blank => rfl
        | malformed => rfl
        | record ts st =>
            exfalso
            have hmem : Line.record ts st ∈ lines := List.mem_of_mem_getLast? hl
            unfold lastValidRecordStatus at h
            rw [List.getLast?_eq_none_iff, List.filterMap_eq_nil_iff] at h
            have := h _ hmem
            simp at this
  · intro lines ts st h
    have hlast : lastValidRecordStatus lines = some st :=
      filterMap_getLast?_of_getLast? _ lines _ st h rfl
    simp only [get_last_status, h, hlast]
    rfl

/-- Counterexample for C3 as stated: a log whose last valid record says
"ok" but whose final line is malformed yields `none`, not `"ok"`: trailing
malformed lines are not skipped. -/
theorem C3_last_status_counterexample :
    get_last_status (some [Line.record (some 0) (some "ok"), Line.malformed]) ≠
      Option.join (lastValidRecordStatus
        [Line.record (some 0) (some "ok"), Line.malformed]) := by
  decide

/-- Witness for the amended C3 at concrete inputs. -/
theorem C3_last_status_amended_witness :
    get_last_status (some [Line.malformed]) = none ∧
    get_last_status (some [Line.blank, Line.record (some 0) (some "warn")]) =
      Option.join (lastValidRecordStatus
        [Line.blank, Line.record (some 0) (some "warn")]) :=
  ⟨C3_last_status_amended.2.1 [Line.malformed] (by decide),
   C3_last_status_amended.2.2 [Line.blank, Line.record (some 0) (some "warn")]
     (some 0) (some "warn") (by decide)⟩

/-! ## C7: last n statuses -/

lemma getLastStatusesAux_eq :
    ∀ (ls : List Line) (n : Nat) (acc : List String), acc.length < n →
      getLastStatusesAux n ls acc =
        acc ++ (ls.filterMap lineStatus?).take (n - acc.length) := by
  intro ls
  induction ls with
  | nil => intro n acc _; simp [getLastStatusesAux]
  | cons l rest ih =>
      intro n acc h
      cases hl : lineStatus? l with
      | none =>
          simp only [getLastStatusesAux, List.filterMap_cons, hl]
          exact ih n acc h
      | some s =>
          simp only [getLastStatusesAux, List.filterMap_cons, hl]
          by_cases hlen : acc.length + 1 ≥ n
          · rw [if_pos hlen]
            have hn : n - acc.length = 1 := by omega
            rw [hn]
            simp
          · rw [if_neg hlen]
            rw [ih n (acc ++ [s]) (by simp; omega)]
            have hn : n - acc.length = (n - (acc.length + 1)) + 1 := by omega
            rw [hn, List.take_succ_cons]
            simp

/-- Claim C7 (amended to `n ≥ 1`): `get_last_statuses` returns the last
`min(n, k)` of the `k` valid statuses of the log, oldest-first, skipping
blank and malformed lines and lines whose status is not ok/warn/bad.
(For `n = 0` the code still returns one element — see the
counterexample.) -/
theorem C7_last_n_amended :
    ∀ (log : Option (List Line)) (n : Nat), 1 ≤ n →
      get_last_statuses log n =
        (validStatuses (log.getD [])).drop
          ((validStatuses (log.getD [])).length - n) := by
  intro log n hn
  cases log with
  | none => simp [get_last_statuses, validStatuses]
  | some lines =>
      simp only [get_last_statuses]
      rw [getLastStatusesAux_eq lines.reverse n [] (by simpa using hn)]
      simp only [List.nil_append, Nat.sub_zero, List.filterMap_reverse]
      rw [List.reverse_take]
      simp [validStatuses]

/-- Counterexample for C7 as stated: with `n = 0` the break check runs only
after the first append, so the code returns one status instead of zero. -/
theorem C7_last_n_counterexample :
    get_last_statuses (some [Line.record none (some "ok")]) 0 ≠
      (validStatuses [Line.record none (some "ok")]).drop
        ((validStatuses [Line.record none (some "ok")]).length - 0) := by
  decide

/-- Witness for the amended C7 at concrete inputs. -/
theorem C7_last_n_amended_witness :
    get_last_statuses (some [Line.record none (some "ok"), Line.malformed,
        Line.record none (some "bad"), Line.record none (some "zzz")]) 2 =
      (validStatuses ((some [Line.record none (some "ok"), Line.malformed,
        Line.record none (some "bad"), Line.record none (some "zzz")]).getD [])).drop
        ((validStatuses ((some [Line.record none (some "ok"), Line.malformed,
          Line.record none (some "bad"), Line.record none (some "zzz")]).getD [])).length - 2) :=
  C7_last_n_amended (some [Line.record none (some "ok"), Line.malformed,
    Line.record none (some "bad"), Line.record none (some "zzz")]) 2 (by decide)

/-! ## C4: input validation of the core operations -/

/-- Claim C4 (corrected): the status-report handler `choose_status` rejects
an unknown entity id or status key with a validation alert and writes
nothing; but the confirmation handler `confirm_status` performs NO such
validation — any three-part callback data is recorded unconditionally. -/
theorem C4_validation_amended :
    (∀ (data : String) (x e s : String) (log : List Line) (t : Int),
        (splitCols data.data).map List.asString = [x, e, s] →
        (e ∉ ELEVATORS ∨ s ∉ validKeys) →
        choose_status data log t = (Outcome.rejected, log)) ∧
    (∀ (data : String) (x e s : String) (log : List Line) (t : Int),
        (splitCols data.data).map List.asString = [x, e, s] →
        confirm_status data log t =
          (Outcome.recorded, log ++ [Line.record (some t) (some s)])) := by
  constructor
  · intro data x e s log t hsplit hbad
    have hne : data ≠ "" := by
      intro hd
      subst hd
      simp [splitCols] at hsplit
    simp only [choose_status, hsplit, if_neg hne]
    rw [if_neg (show ¬ ([x, e, s] : List String).length ≠ 3 by simp)]
    simp only [List.getD_cons_succ, List.getD_cons_zero]
    rcases hbad with hbad | hbad
    · rw [if_pos hbad]
    · by_cases he : e ∈ ELEVATORS
      · rw [if_neg (by simpa using he), if_pos hbad]
      · rw [if_pos he]
  · intro data x e s log t hsplit
    have hne : data ≠ "" := by
      intro hd
      subst hd
      simp [splitCols] at hsplit
    simp only [confirm_status, hsplit, if_neg hne]
    rw [if_neg (show ¬ ([x, e, s] : List String).length ≠ 3 by simp)]
    simp only [List.getD_cons_succ, List.getD_cons_zero]

/-- Counterexample for C4 as stated: `confirm_status` happily records a
status for an unknown elevator id and an unknown status key — a log entry
IS written, with no validation error. -/
theorem C4_validation_counterexample :
    ("9999" ∉ ELEVATORS) ∧ ("zzz" ∉ validKeys) ∧
    confirm_status "c:9999:zzz" [] 0 =
      (Outcome.recorded, [Line.record (some 0) (some "zzz")]) := by
  decide

/-- Witness for the amended C4 at concrete inputs. -/
theorem C4_validation_amended_witness :
    choose_status "s:9999:ok" [] 0 = (Outcome.rejected, []) ∧
    confirm_status "c:8240:ok" [] 5 =
      (Outcome.recorded, [Line.record (some 5) (some "ok")]) :=
  ⟨C4_validation_amended.1 "s:9999:ok" "s" "9999" "ok" [] 0 (by decide)
      (Or.inl (by decide)),
   C4_validation_amended.2 "c:8240:ok" "c" "8240" "ok" [] 5 (by decide)⟩

/-! ## C2: totals sum over the window -/

lemma parse_events_sorted (log : Option (List Line)) :
    List.Pairwise (fun a b => a.1 ≤ b.1) (parse_events_for_elevator log) := by
  cases log with
  | none => simp [parse_events_for_elevator]
  | some lines => exact List.sorted_insertionSort _ _

lemma parse_events_status_mem (log : Option (List Line)) :
    ∀ e ∈ parse_events_for_elevator log,
      e.2 = "ok" ∨ e.2 = "warn" ∨ e.2 = "bad" := by
  intro e he
  cases log with
  | none => simp [parse_events_for_elevator] at he
  | some lines =>
      simp only [parse_events_for_elevator] at he
      rw [(List.perm_insertionSort _ _).mem_iff] at he
      obtain ⟨l, _, hfl⟩ := List.mem_filterMap.mp he
      cases l with
      | blank => simp [validEvent] at hfl
      | malformed => simp [validEvent] at hfl
      | record ts st =>
          cases ts with
          | none => simp [validEvent] at hfl
          | some tv =>
              cases st with
              | none => simp [validEvent] at hfl
              | some sv =>
                  simp only [validEvent] at hfl
                  split_ifs at hfl with hs
                  obtain rfl : (tv, sv) = e := by simpa using hfl
                  simpa using hs

lemma sumTotals_add (t : Totals) (st : String) (d : Int)
    (h : st = "ok" ∨ st = "warn" ∨ st = "bad" ∨ st = "unknown") :
    sumTotals (t.add st d) = sumTotals t + d := by
  rcases h with rfl | rfl | rfl | rfl <;>
    simp [Totals.add, sumTotals] <;> try ring

lemma statusBeforeStart_keys (events : List (Int × String)) (start : Int) :
    ∀ cur : String,
      (cur = "ok" ∨ cur = "warn" ∨ cur = "bad" ∨ cur = "unknown") →
      (∀ e ∈ events, e.2 = "ok" ∨ e.2 = "warn" ∨ e.2 = "bad") →
      (statusBeforeStart events start cur = "ok" ∨
       statusBeforeStart events start cur = "warn" ∨
       statusBeforeStart events start cur = "bad" ∨
       statusBeforeStart events start cur = "unknown") := by
  induction events with
  | nil => intro cur hc _; simpa [statusBeforeStart] using hc
  | cons e rest ih =>
      intro cur hc hall
      obtain ⟨ts, st⟩ := e
      simp only [statusBeforeStart]
      split_ifs with hlt
      · refine ih st ?_ (fun e he => hall e (List.mem_cons_of_mem _ he))
        have := hall (ts, st) (List.mem_cons_self _ _)
        tauto
      · exact hc

lemma uptimeLoop_sum :
    ∀ (events : List (Int × String)) (start fin cursor : Int) (cur : String)
      (totals : Totals),
      List.Pairwise (fun a b => a.1 ≤ b.1) events →
      (∀ e ∈ events, e.2 = "ok" ∨ e.2 = "warn" ∨ e.2 = "bad") →
      (cur = "ok" ∨ cur = "warn" ∨ cur = "bad" ∨ cur = "unknown") →
      cursor ≤ fin →
      (∀ e ∈ events, start ≤ e.1 → cursor ≤ e.1) →
      (1000000 : Int) ∣ cursor → (1000000 : Int) ∣ fin →
      (∀ e ∈ events, (1000000 : Int) ∣ e.1) →
      sumTotals (uptimeLoop events start fin cursor cur totals) =
        sumTotals totals + (fin - cursor) / 1000000 := by
  intro events
  induction events with
  | nil =>
      intro start fin cursor cur totals _ _ hcur hle _ hdc hdf _
      simp only [uptimeLoop]
      split_ifs with h
      · rw [sumTotals_add _ _ _ hcur]
      · have he : cursor = fin := by omega
        subst he
        simp
  | cons e rest ih =>
      intro start fin cursor cur totals hpw hkeys hcur hle hinv hdc hdf hdiv
      obtain ⟨ts, st⟩ := e
      have hpw' := (List.pairwise_cons.mp hpw).2
      have hhead := (List.pairwise_cons.mp hpw).1
      have hkeys' : ∀ e ∈ rest, e.2 = "ok" ∨ e.2 = "warn" ∨ e.2 = "bad" :=
        fun e he => hkeys e (List.mem_cons_of_mem _ he)
      have hdiv' : ∀ e ∈ rest, (1000000 : Int) ∣ e.1 :=
        fun e he => hdiv e (List.mem_cons_of_mem _ he)
      have hst : st = "ok" ∨ st = "warn" ∨ st = "bad" := by
        simpa using hkeys (ts, st) (List.mem_cons_self _ _)
      have hts_div : (1000000 : Int) ∣ ts := by
        simpa using hdiv (ts, st) (List.mem_cons_self _ _)
      simp only [uptimeLoop]
      split_ifs with h1 h2 h3 h4
      · exact ih start fin cursor cur totals hpw' hkeys' hcur hle
          (fun e he hs => hinv e (List.mem_cons_of_mem _ he) hs) hdc hdf hdiv'
      · rw [sumTotals_add _ _ _ hcur]
      · have he : cursor = fin := by omega
        subst he
        simp
      · have hrec := ih start fin ts st
          (totals.add cur ((ts - cursor) / 1000000)) hpw' hkeys' (by tauto)
          (by omega) (fun e he _ => hhead e he) hts_div hdf hdiv'
        rw [hrec, sumTotals_add _ _ _ hcur]
        obtain ⟨a, ha⟩ := hdc
        obtain ⟨b, hb⟩ := hdf
        obtain ⟨c, hc⟩ := hts_div
        rw [ha, hb, hc, ← mul_sub, ← mul_sub, ← mul_sub,
          Int.mul_ediv_cancel_left _ (by norm_num),
          Int.mul_ediv_cancel_left _ (by norm_num),
          Int.mul_ediv_cancel_left _ (by norm_num)]
        ring
      · have hts_ge : cursor ≤ ts :=
          hinv (ts, st) (List.mem_cons_self _ _) (by omega)
        have he : ts = cursor := by omega
        subst he
        exact ih start fin ts st totals hpw' hkeys' (by tauto) hle
          (fun e he _ => hhead e he) hdc hdf hdiv'

/-- Claim C2 (amended to whole-second data): when the window endpoints and
all valid event timestamps are whole seconds (multiples of 10^6 µs) and
`start ≤ fin`, the four totals of `compute_uptime` sum exactly to
`fin - start` in whole seconds.  (With sub-second timestamps the
per-segment `int(...)` truncation loses time — see the counterexample.) -/
theorem C2_sum_whole_seconds :
    ∀ (log : Option (List Line)) (start fin : Int),
      start ≤ fin →
      (1000000 : Int) ∣ start → (1000000 : Int) ∣ fin →
      (∀ e ∈ parse_events_for_elevator log, (1000000 : Int) ∣ e.1) →
      sumTotals (compute_uptime log start fin) = (fin - start) / 1000000 := by
  intro log start fin hle hds hdf hdiv
  by_cases h : start ≥ fin
  · have he : start = fin := by omega
    subst he
    simp [compute_uptime, sumTotals]
  · simp only [compute_uptime, if_neg h]
    rw [uptimeLoop_sum (parse_events_for_elevator log) start fin start
      (statusBeforeStart (parse_events_for_elevator log) start "unknown")
      ⟨0, 0, 0, 0⟩ (parse_events_sorted log) (parse_events_status_mem log)
      (statusBeforeStart_keys _ start "unknown" (by tauto)
        (parse_events_status_mem log))
      (by omega) (fun e _ hs => hs) hds hdf hdiv]
    simp [sumTotals]

/-- Counterexample for C2 as stated: one event at 0.5 s inside the window
`[0 s, 2 s)` makes the totals sum to 1 second, not the window length 2:
each segment is truncated to whole seconds separately. -/
theorem C2_sum_counterexample :
    sumTotals (compute_uptime (some [Line.record (some 500000) (some "ok")])
        0 2000000) ≠ ((2000000 : Int) - 0) / 1000000 := by
  decide

/-- Witness for the amended C2 at concrete inputs. -/
theorem C2_sum_whole_seconds_witness :
    sumTotals (compute_uptime (some [Line.record (some 1000000) (some "ok")])
        0 3000000) = ((3000000 : Int) - 0) / 1000000 :=
  C2_sum_whole_seconds (some [Line.record (some 1000000) (some "ok")]) 0 3000000
    (by norm_num) (by norm_num) (by norm_num) (by decide)

/-! ## C5: status in effect at window start -/

lemma statusBeforeStart_eq :
    ∀ (events : List (Int × String)) (start : Int) (cur : String),
      List.Pairwise (fun a b => a.1 ≤ b.1) events →
      statusBeforeStart events start cur =
        (((events.filter (fun e => decide (e.1 < start))).getLast?).map Prod.snd).getD cur := by
  intro events
  induction events with
  | nil => intro start cur _; simp [statusBeforeStart]
  | cons e rest ih =>
      intro start cur hpw
      obtain ⟨ts, st⟩ := e
      have hpw' := (List.pairwise_cons.mp hpw).2
      have hhead := (List.pairwise_cons.mp hpw).1
      simp only [statusBeforeStart, List.filter_cons]
      by_cases hlt : ts < start
      · rw [if_pos hlt, ih start st hpw', if_pos (by simpa using hlt)]
        cases hf : (rest.filter (fun e => decide (e.1 < start))).getLast? with
        | none =>
            have hemp : rest.filter (fun e => decide (e.1 < start)) = [] := by
              rwa [← List.getLast?_eq_none_iff]
            rw [hemp]
            simp
        | some p =>
            have hne : rest.filter (fun e => decide (e.1 < start)) ≠ [] := by
              intro hemp
              rw [hemp] at hf
              simp at hf
            obtain ⟨z, w, hw⟩ := List.exists_cons_of_ne_nil hne
            rw [hw, List.getLast?_cons_cons, ← hw, hf]
            simp
      · rw [if_neg hlt, if_neg (by simpa using hlt)]
        have hemp : rest.filter (fun e => decide (e.1 < start)) = [] := by
          rw [List.filter_eq_nil_iff]
          intro a ha
          have := hhead a ha
          simp only [decide_eq_true_eq]
          simp at this ⊢
          omega
        rw [hemp]
        simp

/-- Claim C5: the status in effect at the window start is the status of the
latest (sorted-order last) event strictly before `start`, or `"unknown"`
when none exists; in particular, a single `ok` event at `t0` with window
`[t0 - 3600 s, t0 + 3600 s)` yields 3600 s of `unknown` and 3600 s of
`ok`. -/
theorem C5_status_at_start :
    (∀ (log : Option (List Line)) (start : Int),
      statusBeforeStart (parse_events_for_elevator log) start "unknown" =
        ((((parse_events_for_elevator log).filter
            (fun e => decide (e.1 < start))).getLast?).map Prod.snd).getD "unknown") ∧
    (∀ t0 : Int,
      compute_uptime (some [Line.record (some t0) (some "ok")])
          (t0 - 3600000000) (t0 + 3600000000) = ⟨3600, 0, 0, 3600⟩) := by
  constructor
  · intro log start
    exact statusBeforeStart_eq _ start "unknown" (parse_events_sorted log)
  · intro t0
    have hpe : parse_events_for_elevator (some [Line.record (some t0) (some "ok")])
        = [(t0, "ok")] := by
      simp [parse_events_for_elevator, validEvent, List.insertionSort, List.orderedInsert]
    simp only [compute_uptime, hpe]
    rw [if_neg (by omega : ¬ (t0 - 3600000000 ≥ t0 + 3600000000))]
    rw [show statusBeforeStart [(t0, "ok")] (t0 - 3600000000) "unknown" = "unknown" from by
      simp only [statusBeforeStart]; rw [if_neg (by omega : ¬ t0 < t0 - 3600000000)]]
    simp only [uptimeLoop]
    rw [if_neg (by omega : ¬ t0 < t0 - 3600000000)]
    rw [if_neg (by omega : ¬ t0 ≥ t0 + 3600000000)]
    rw [if_pos (by omega : t0 > t0 - 3600000000)]
    rw [if_pos (by omega : t0 + 3600000000 > t0)]
    rw [(by omega : (t0 - (t0 - 3600000000)) / 1000000 = (3600 : Int))]
    rw [(by omega : (t0 + 3600000000 - t0) / 1000000 = (3600 : Int))]
    decide

/-! ## C6: worked example window -/

/-- Claim C6: for events `(t0, ok), (t0+600 s, bad), (t0+1800 s, ok)` and
window `[t0, t0 + 3600 s)`, `compute_uptime` returns ok = 2400, bad = 1200,
warn = 0, unknown = 0, summing to 3600. -/
theorem C6_example_window :
    ∀ t0 : Int,
      compute_uptime (some [Line.record (some t0) (some "ok"),
          Line.record (some (t0 + 600000000)) (some "bad"),
          Line.record (some (t0 + 1800000000)) (some "ok")])
        t0 (t0 + 3600000000) = ⟨2400, 0, 1200, 0⟩ ∧
      sumTotals (compute_uptime (some [Line.record (some t0) (some "ok"),
          Line.record (some (t0 + 600000000)) (some "bad"),
          Line.record (some (t0 + 1800000000)) (some "ok")])
        t0 (t0 + 3600000000)) = 3600 := by
  intro t0
  have hpe : parse_events_for_elevator (some [Line.record (some t0) (some "ok"),
      Line.record (some (t0 + 600000000)) (some "bad"),
      Line.record (some (t0 + 1800000000)) (some "ok")])
      = [(t0, "ok"), (t0 + 600000000, "bad"), (t0 + 1800000000, "ok")] := by
    simp [parse_events_for_elevator, validEvent, List.insertionSort,
      List.orderedInsert, add_le_add_iff_left, le_add_iff_nonneg_right]
  have hmain : compute_uptime (some [Line.record (some t0) (some "ok"),
      Line.record (some (t0 + 600000000)) (some "bad"),
      Line.record (some (t0 + 1800000000)) (some "ok")])
      t0 (t0 + 3600000000) = ⟨2400, 0, 1200, 0⟩ := by
    simp only [compute_uptime, hpe]
    rw [if_neg (by omega : ¬ t0 ≥ t0 + 3600000000)]
    rw [show statusBeforeStart [(t0, "ok"), (t0 + 600000000, "bad"),
        (t0 + 1800000000, "ok")] t0 "unknown" = "unknown" from by
      simp only [statusBeforeStart]; rw [if_neg (by omega : ¬ t0 < t0)]]
    simp only [uptimeLoop]
    rw [if_neg (by omega : ¬ t0 < t0)]
    rw [if_neg (by omega : ¬ t0 ≥ t0 + 3600000000)]
    rw [if_neg (by omega : ¬ t0 > t0)]
    rw [if_neg (by omega : ¬ t0 + 600000000 < t0)]
    rw [if_neg (by omega : ¬ t0 + 600000000 ≥ t0 + 3600000000)]
    rw [if_pos (by omega : t0 + 600000000 > t0)]
    rw [if_neg (by omega : ¬ t0 + 1800000000 < t0)]
    rw [if_neg (by omega : ¬ t0 + 1800000000 ≥ t0 + 3600000000)]
    rw [if_pos (by omega : t0 + 1800000000 > t0 + 600000000)]
    rw [if_pos (by omega : t0 + 3600000000 > t0 + 1800000000)]
    rw [(by omega : (t0 + 600000000 - t0) / 1000000 = (600 : Int))]
    rw [(by omega : (t0 + 1800000000 - (t0 + 600000000)) / 1000000 = (1200 : Int))]
    rw [(by omega : (t0 + 3600000000 - (t0 + 1800000000)) / 1000000 = (1800 : Int))]
    decide
  exact ⟨hmain, by rw [hmain]; decide⟩

/-! ## C8: report percentages -/

/-- Off ties, Python `round` agrees with the round-half-up formula
`⌊(2 num + den) / (2 den)⌋`. -/
lemma roundHalfEven_eq_halfUp (num den : Int) (hden : 0 < den)
    (hne : 2 * (num % den) ≠ den) :
    roundHalfEven num den = (2 * num + den) / (2 * den) := by
  have hdm : den * (num / den) + num % den = num := Int.ediv_add_emod num den
  have hr0 : 0 ≤ num % den := Int.emod_nonneg num (by omega)
  have hrlt : num % den < den := Int.emod_lt_of_pos num hden
  have hrep : 2 * num + den = (2 * (num % den) + den) + (2 * den) * (num / den) := by
    linear_combination 2 * hdm.symm
  simp only [roundHalfEven]
  rw [hrep, Int.add_mul_ediv_left _ _ (by omega : (2 * den) ≠ 0)]
  rcases lt_or_gt_of_ne hne with hlt | hgt
  · rw [if_pos hlt,
      @Int.ediv_eq_zero_of_lt (2 * (num % den) + den) (2 * den) (by omega) (by omega)]
    ring
  · rw [if_neg (by omega), if_pos (by omega : den < 2 * (num % den))]
    have h1 : 2 * (num % den) + den = (2 * (num % den) - den) + (2 * den) * 1 := by
      ring
    rw [h1, Int.add_mul_ediv_left _ _ (by omega : (2 * den) ≠ 0),
      @Int.ediv_eq_zero_of_lt (2 * (num % den) - den) (2 * den) (by omega) (by omega)]
    ring

/-- Claim C8 (corrected): the denominator is the full window when the
unknown total is positive (and the unknown bucket is shown), and the known
total otherwise — but percentages use Python `round`, i.e. nearest with
ties to EVEN, which agrees with round-half-up only off exact halves. -/
theorem C8_rounding_amended :
    (∀ (id : String) (t : Totals),
      0 ≤ t.ok → 0 ≤ t.warn → 0 ≤ t.bad → 0 ≤ t.unknown →
      t.ok + t.warn + t.bad + t.unknown ≠ 0 →
      render_report_block id t =
        renderWithDenom id t
          (if t.unknown > 0 then t.ok + t.warn + t.bad + t.unknown
           else t.ok + t.warn + t.bad)) ∧
    (∀ num den : Int, 0 < den → 2 * (num % den) ≠ den →
      roundHalfEven num den = (2 * num + den) / (2 * den)) ∧
    (∀ num den : Int, 0 < den → 2 * (num % den) = den →
      roundHalfEven num den =
        if (num / den) % 2 = 0 then num / den else num / den + 1) := by
  refine ⟨?_, ?_, ?_⟩
  · intro id t h1 h2 h3 h4 hfull
    simp only [render_report_block, renderWithDenom]
    rw [if_neg hfull]
    have hden : (if (if t.unknown > 0 then t.ok + t.warn + t.bad + t.unknown
          else t.ok + t.warn + t.bad) = 0
        then t.ok + t.warn + t.bad + t.unknown
        else (if t.unknown > 0 then t.ok + t.warn + t.bad + t.unknown
          else t.ok + t.warn + t.bad)) =
        (if t.unknown > 0 then t.ok + t.warn + t.bad + t.unknown
          else t.ok + t.warn + t.bad) := by
      split_ifs with ha hb <;> omega
    rw [hden]
  · intro num den hden hne
    exact roundHalfEven_eq_halfUp num den hden hne
  · intro num den hden htie
    simp only [roundHalfEven]
    rw [if_neg (by omega), if_neg (by omega)]

/-- Counterexample for C8 as stated: with totals ok = 1 s and unknown =
199 s the ok percentage is 100/200 = 0.5, which Python `round` takes to 0
(ties to even) while round-half-up gives 1: the rendered block shows
"(0%)". -/
theorem C8_rounding_counterexample :
    render_report_block "8240" ⟨1, 0, 0, 199⟩ =
      "Лифт 8240:\nработает = 0м (0%)\nусловно работает = 0м (0%)\nне работает = 0м (0%)\nнет данных = 3м (100%)\n" ∧
    pct 200 1 = 0 ∧ (2 * (1 * 100) + 200) / (2 * 200) = (1 : Int) := by
  decide

/-- Witness for the amended C8 at concrete inputs. -/
theorem C8_rounding_amended_witness :
    (render_report_block "8240" ⟨1, 1, 1, 1⟩ =
      renderWithDenom "8240" ⟨1, 1, 1, 1⟩
        (if (⟨1, 1, 1, 1⟩ : Totals).unknown > 0 then
            (⟨1, 1, 1, 1⟩ : Totals).ok + (⟨1, 1, 1, 1⟩ : Totals).warn +
              (⟨1, 1, 1, 1⟩ : Totals).bad + (⟨1, 1, 1, 1⟩ : Totals).unknown
          else (⟨1, 1, 1, 1⟩ : Totals).ok + (⟨1, 1, 1, 1⟩ : Totals).warn +
            (⟨1, 1, 1, 1⟩ : Totals).bad)) ∧
    roundHalfEven 30 200 = (2 * 30 + 200) / (2 * 200) ∧
    roundHalfEven 300 200 =
      if ((300 : Int) / 200) % 2 = 0 then (300 : Int) / 200 else (300 : Int) / 200 + 1 :=
  ⟨C8_rounding_amended.1 "8240" ⟨1, 1, 1, 1⟩ (by decide) (by decide) (by decide)
      (by decide) (by decide),
   C8_rounding_amended.2.1 30 200 (by decide) (by decide),
   C8_rounding_amended.2.2 300 200 (by decide) (by decide)⟩
